import Mathlib

/-!
Verification development for the simple-cam capture example
(src/simple-cam.cpp): a shallow embedding of the request-completion
bridge, the camera-naming logic and the `main` orchestration, with the
request lifecycle state machine modelled from the design document where
the implementing code (libcamera's `Request`, `event_loop.h`) is outside
the repository snapshot.
-/

/-- Modelled from the spec: lifecycle states of a capture Request
(§3 Data model / §4.1 RequestTracker). The implementing class
(libcamera `Request`) is not part of the repository snapshot; the
source only consults the Cancelled state (`request->status() ==
Request::RequestCancelled`, simple-cam.cpp line 41). -/
inductive ReqState
  | Idle
  | Queued
  | Completed
  | Cancelled
deriving DecidableEq

/-- Modelled from the spec: error raised on an invalid state-machine
transition (§4.1, §7 `InvalidStateError`). -/
inductive ReqError
  | InvalidStateError
deriving DecidableEq

/-- Modelled from the spec: a capture Request binds buffer handles
(stream identifier × buffer handle) and carries a metadata result set
populated upon completion (§3 Data model). -/
structure Request where
  buffers : List (Nat × Nat)
  state : ReqState
  metadata : List (Nat × Nat)
deriving DecidableEq

/-- Modelled from the spec: buffer-release policy of `reuse` (§4.1):
keep the bound buffers (the source's `Request::ReuseBuffers` flag,
simple-cam.cpp line 112) or return them to the pool for rebinding. -/
inductive ReusePolicy
  | ReuseBuffers
  | ReturnBuffersToPool
deriving DecidableEq

/-- Modelled from the spec: `submit` is valid only from Idle and
transitions the Request to Queued (§4.1); the source performs it via
`camera->queueRequest` (simple-cam.cpp lines 462 and 113). -/
def submit (r : Request) : Except ReqError Request :=
  match r.state with
  | ReqState.Idle => Except.ok { r with state := ReqState.Queued }
  | _ => Except.error ReqError.InvalidStateError

/-- Modelled from the spec: `onCompleted` is valid only from Queued,
transitions to Completed and stores the metadata (§4.1). -/
def onCompleted (r : Request) (md : List (Nat × Nat)) : Except ReqError Request :=
  match r.state with
  | ReqState.Queued => Except.ok { r with state := ReqState.Completed, metadata := md }
  | _ => Except.error ReqError.InvalidStateError

/-- Modelled from the spec: `onCancelled` is valid only from Queued and
transitions to Cancelled, storing no metadata (§4.1). -/
def onCancelled (r : Request) : Except ReqError Request :=
  match r.state with
  | ReqState.Queued => Except.ok { r with state := ReqState.Cancelled }
  | _ => Except.error ReqError.InvalidStateError

/-- Modelled from the spec: `reuse` is valid from Completed or
Cancelled, clears the metadata, keeps or releases the buffers per the
policy, and transitions back to Idle (§4.1). -/
def reuse (r : Request) (p : ReusePolicy) : Except ReqError Request :=
  match r.state with
  | ReqState.Completed =>
      Except.ok { state := ReqState.Idle, metadata := [],
                  buffers := match p with
                             | ReusePolicy.ReuseBuffers => r.buffers
                             | ReusePolicy.ReturnBuffersToPool => [] }
  | ReqState.Cancelled =>
      Except.ok { state := ReqState.Idle, metadata := [],
                  buffers := match p with
                             | ReusePolicy.ReuseBuffers => r.buffers
                             | ReusePolicy.ReturnBuffersToPool => [] }
  | _ => Except.error ReqError.InvalidStateError

/-- The consumer-side completion handler, from simple-cam.cpp lines
47–114: `processRequest` reads the request's metadata (read-only
inspection, the prints), calls `request->reuse(Request::ReuseBuffers)`
(line 112) and resubmits the same request via `camera->queueRequest`
(line 113). It returns the metadata it inspected together with the
resubmitted request. -/
def processRequest (r : Request) : Except ReqError (List (Nat × Nat) × Request) :=
  let md := r.metadata
  match reuse r ReusePolicy.ReuseBuffers with
  | Except.error e => Except.error e
  | Except.ok r2 =>
      match submit r2 with
      | Except.error e => Except.error e
      | Except.ok r3 => Except.ok (md, r3)

/-- The producer-thread completion callback, from simple-cam.cpp lines
39–45: acting on the deferred-callback queue, `requestComplete` returns
the queue unchanged when the request's status is Cancelled (lines
41–42) and otherwise appends the request via `loop.callLater` (line
44). -/
def requestComplete (queue : List Request) (r : Request) : List Request :=
  if r.state = ReqState.Cancelled then queue
  else queue ++ [r]

/-- Modelled from the spec: the EventLoop (`event_loop.h`, not under
the repository snapshot's src/) runs deferred callbacks on the consumer
thread in exactly the order they were posted with `callLater`
(§4.3); the handler-invocation sequence therefore equals the queue
contents in FIFO order. -/
def dispatchOrder (queue : List Request) : List Request := queue

/-- The sequence of requests for which the consumer-side handler is
invoked, given the sequence of completion notifications arriving at
`requestComplete` in order. -/
def dispatchedHandlers (notifications : List Request) : List Request :=
  dispatchOrder (notifications.foldl requestComplete [])

theorem foldl_requestComplete_eq (notifications : List Request) :
    ∀ acc : List Request,
      notifications.foldl requestComplete acc =
        acc ++ notifications.filter (fun r => decide (r.state ≠ ReqState.Cancelled)) := by
  induction notifications with
  | nil => intro acc; simp
  | cons r ns ih =>
      intro acc
      by_cases h : r.state = ReqState.Cancelled
      · simp [List.foldl_cons, requestComplete, h, ih]
      · simp [List.foldl_cons, requestComplete, h, ih, List.append_assoc]

/-- C1 (amended): a Request delivered by the producer-thread completion
callback while already in Cancelled state is dropped by
`requestComplete`: the deferred-callback queue is unchanged, so the
consumer-side handler is never invoked for it and it is not
resubmitted. -/
theorem cancelled_request_dropped (q : List Request) (ns : List Request) (r : Request)
    (h : r.state = ReqState.Cancelled) :
    requestComplete q r = q ∧
      dispatchedHandlers (ns ++ [r]) = dispatchedHandlers ns := by
  constructor
  · simp [requestComplete, h]
  · simp [dispatchedHandlers, dispatchOrder, List.foldl_append, List.foldl_cons,
          requestComplete, h]

/-- A concrete cancelled request. -/
def reqCancelledA : Request :=
  { buffers := [(0, 1)], state := ReqState.Cancelled, metadata := [] }

/-- A second concrete cancelled request. -/
def reqCancelledB : Request :=
  { buffers := [(0, 2)], state := ReqState.Cancelled, metadata := [] }

/-- A concrete completed request. -/
def reqCompletedA : Request :=
  { buffers := [(0, 0)], state := ReqState.Completed, metadata := [(3, 7)] }

/-- C1 counterexample: for a concrete Request already in Cancelled
state, the bridge does NOT enqueue it (the queue stays empty) and the
consumer-side handler is never invoked for it — refuting the claim
that the bridge still enqueues it and that the handler runs for it. -/
theorem cancelled_request_dropped_cex :
    requestComplete [] reqCancelledA = [] ∧
      dispatchedHandlers [reqCancelledA] = [] := by
  exact ⟨rfl, rfl⟩

/-- C1 witness: the amended theorem applied at a concrete cancelled
request and queue. -/
theorem cancelled_request_dropped_witness :
    requestComplete [reqCompletedA] reqCancelledB = [reqCompletedA] ∧
      dispatchedHandlers ([reqCompletedA] ++ [reqCancelledB]) =
        dispatchedHandlers [reqCompletedA] :=
  cancelled_request_dropped [reqCompletedA] [reqCompletedA] reqCancelledB rfl

/-- C6 (amended): for any sequence of completion notifications arriving
at the bridge, the consumer-side handler is invoked exactly once per
non-Cancelled notification, in exactly the arrival order; notifications
for Cancelled requests are dropped at the bridge and never dispatched. -/
theorem handlers_fifo_filter (notifications : List Request) :
    dispatchedHandlers notifications =
      notifications.filter (fun r => decide (r.state ≠ ReqState.Cancelled)) := by
  simp [dispatchedHandlers, dispatchOrder, foldl_requestComplete_eq]

/-- C6 counterexample: a concrete sequence of 2 notifications, one of
them for a Cancelled request, yields only 1 handler invocation — the
handler is not invoked once per notification as the claim states. -/
theorem handlers_fifo_filter_cex :
    dispatchedHandlers [reqCompletedA, reqCancelledA] = [reqCompletedA] ∧
      dispatchedHandlers [reqCompletedA, reqCancelledA] ≠
        [reqCompletedA, reqCancelledA] := by
  exact ⟨rfl, by decide⟩

/-- C4: for every Request starting Idle with empty metadata, the
submit → onCompleted → reuse(ReuseBuffers) → submit cycle (the latter
two performed by `processRequest`, which reads the metadata read-only)
succeeds, `reuse` returns the Request to exactly the value it started
from — Idle, with the same buffers still bound, metadata cleared — and
the resubmission yields exactly the same Queued request as the first
submission, so buffer ownership is neither leaked nor duplicated
across cycles. -/
theorem request_cycle_roundtrip (r : Request) (md : List (Nat × Nat))
    (hs : r.state = ReqState.Idle) (hm : r.metadata = []) :
    ∃ r1 r2, submit r = Except.ok r1 ∧
      onCompleted r1 md = Except.ok r2 ∧
      r2.metadata = md ∧
      reuse r2 ReusePolicy.ReuseBuffers = Except.ok r ∧
      processRequest r2 = Except.ok (md, r1) ∧
      r1.state = ReqState.Queued ∧ r1.buffers = r.buffers := by
  obtain ⟨bufs, st, meta⟩ := r
  simp only at hs hm
  subst hs; subst hm
  refine ⟨{ buffers := bufs, state := ReqState.Queued, metadata := [] },
          { buffers := bufs, state := ReqState.Completed, metadata := md },
          rfl, rfl, rfl, rfl, rfl, rfl, rfl⟩

/-- C4 witness: the round-trip theorem applied at a concrete Idle
request and concrete metadata. -/
theorem request_cycle_roundtrip_witness :
    ∃ r1 r2,
      submit { buffers := [(0, 0)], state := ReqState.Idle, metadata := [] } = Except.ok r1 ∧
      onCompleted r1 [(5, 9)] = Except.ok r2 ∧
      r2.metadata = [(5, 9)] ∧
      reuse r2 ReusePolicy.ReuseBuffers =
        Except.ok { buffers := [(0, 0)], state := ReqState.Idle, metadata := [] } ∧
      processRequest r2 = Except.ok ([(5, 9)], r1) ∧
      r1.state = ReqState.Queued ∧
      r1.buffers = Request.buffers { buffers := [(0, 0)], state := ReqState.Idle, metadata := [] } :=
  request_cycle_roundtrip
    { buffers := [(0, 0)], state := ReqState.Idle, metadata := [] } [(5, 9)] rfl rfl

/-- The three values of the libcamera `Location` camera property
consulted by the switch in simple-cam.cpp lines 141–155. -/
inductive CameraLocation
  | Front
  | Back
  | External
deriving DecidableEq

/-- The static camera properties read by `cameraName`: the optional
`properties::Location` (line 138) and the optional `properties::Model`
(line 151). -/
structure CameraProps where
  location : Option CameraLocation
  model : Option String
deriving DecidableEq

/-- The camera-naming logic, from simple-cam.cpp lines 133–161: the
base name is chosen by location; in the External branch the model
assignment at line 153 OVERWRITES the base `"External camera"` set at
line 150 (`name = " '" + *model + "'"`, not `+=`); finally the unique
id in parentheses is appended (line 158). -/
def cameraName (props : CameraProps) (id : String) : String :=
  let name : String :=
    match props.location with
    | none => ""
    | some CameraLocation.Front => "Internal front camera"
    | some CameraLocation.Back => "Internal back camera"
    | some CameraLocation.External =>
        match props.model with
        | some m => " \x27" ++ m ++ "\x27"
        | none => "External camera"
  name ++ (" (" ++ id ++ ")")

theorem prefixOfAppendCons {α : Type} {x : α} {t r : List α} :
    ∀ (B l : List α), B ++ t = l ++ x :: r → x ∉ B → List.IsPrefix B l := by
  intro B
  induction B with
  | nil => intro l _ _; exact ⟨l, rfl⟩
  | cons b B2 ih =>
      intro l h hx
      cases l with
      | nil =>
          have h2 : b = x ∧ B2 ++ t = r := by simpa using h
          obtain ⟨rfl, _⟩ := h2
          exact absurd (List.mem_cons_self b B2) hx
      | cons y l2 =>
          have h2 : b = y ∧ B2 ++ t = l2 ++ x :: r := by simpa using h
          obtain ⟨rfl, h3⟩ := h2
          obtain ⟨u, hu⟩ := ih l2 h3 (fun hm => hx (List.mem_cons_of_mem _ hm))
          exact ⟨u, by simp [hu]⟩

theorem infixSplitCons {α : Type} {x : α} {B r : List α} :
    ∀ (l s t : List α), s ++ B ++ t = l ++ x :: r → x ∉ B →
      List.IsInfix B l ∨ List.IsInfix B r := by
  intro l
  induction l with
  | nil =>
      intro s t h hx
      cases s with
      | nil =>
          cases B with
          | nil => exact Or.inr ⟨[], r, by simp⟩
          | cons b B2 =>
              have h2 : b = x ∧ B2 ++ t = r := by simpa using h
              obtain ⟨rfl, _⟩ := h2
              exact absurd (List.mem_cons_self b B2) hx
      | cons a s2 =>
          have h2 : a = x ∧ s2 ++ B ++ t = r := by simpa [List.append_assoc] using h
          exact Or.inr ⟨s2, t, by simpa [List.append_assoc] using h2.2⟩
  | cons y l2 ih =>
      intro s t h hx
      cases s with
      | nil =>
          have h2 : B ++ t = (y :: l2) ++ x :: r := by simpa using h
          obtain ⟨u, hu⟩ := prefixOfAppendCons B (y :: l2) h2 hx
          exact Or.inl ⟨[], u, by simpa using hu⟩
      | cons a s2 =>
          have h2 : a = y ∧ s2 ++ B ++ t = l2 ++ x :: r := by
            simpa [List.append_assoc] using h
          rcases ih s2 t (by simpa [List.append_assoc] using h2.2) hx with h3 | h3
          · obtain ⟨u, v, huv⟩ := h3
            exact Or.inl ⟨y :: u, v, by simp [huv]⟩
          · exact Or.inr h3

theorem extCameraName_data (m id : String) :
    (cameraName { location := some CameraLocation.External, model := some m } id).data =
      [' '] ++ '\x27' :: (m.data ++ '\x27' :: (' ' :: ('(' :: (id.data ++ [')'])))) := by
  show (" \x27").data ++ m.data ++ ("\x27").data ++ ((" (").data ++ id.data ++ (")").data) = _
  simp

/-- C7: for an External-location camera with a Model property present,
the model-name assignment overwrites rather than appends the base
name: the returned string is exactly the quoted model followed by the
parenthesized id, it contains the quoted model name, and — whenever the
model and id strings do not themselves contain the base text — the
result no longer contains the base text "External camera". -/
theorem external_model_overwrites (m id : String) :
    cameraName { location := some CameraLocation.External, model := some m } id =
      (" \x27" ++ m ++ "\x27") ++ (" (" ++ id ++ ")") ∧
    List.IsInfix ("\x27" ++ m ++ "\x27").data
      (cameraName { location := some CameraLocation.External, model := some m } id).data ∧
    (¬ List.IsInfix ("External camera").data m.data →
     ¬ List.IsInfix ("External camera").data id.data →
     ¬ List.IsInfix ("External camera").data
        (cameraName { location := some CameraLocation.External, model := some m } id).data) := by
  refine ⟨rfl, ?_, ?_⟩
  · refine ⟨[' '], [' ', '('] ++ id.data ++ [')'], ?_⟩
    rw [extCameraName_data]
    show [' '] ++ (('\x27' :: m.data) ++ ['\x27']) ++ ([' ', '('] ++ id.data ++ [')']) = _
    simp
  · intro hm hid hin
    have hlen : ("External camera").data.length = 15 := rfl
    rw [extCameraName_data] at hin
    obtain ⟨s0, t0, h0⟩ := hin
    rcases infixSplitCons [' '] s0 t0 h0 (by decide) with h1 | h1
    · have := h1.length_le
      simp [hlen] at this
    · obtain ⟨s1, t1, hs1⟩ := h1
      rcases infixSplitCons m.data s1 t1 hs1 (by decide) with h2 | h2
      · exact hm h2
      · obtain ⟨s2, t2, hs2⟩ := h2
        rcases infixSplitCons [' '] s2 t2 hs2 (by decide) with h3 | h3
        · have := h3.length_le
          simp [hlen] at this
        · obtain ⟨s3, t3, hs3⟩ := h3
          rcases infixSplitCons id.data s3 t3 hs3 (by decide) with h4 | h4
          · exact hid h4
          · have := h4.length_le
            simp [hlen] at this

/-- C7 witness: the overwrite theorem applied at a concrete model and
id whose strings do not contain the base text. -/
theorem external_model_overwrites_witness :
    ¬ List.IsInfix ("External camera").data ("UVC Webcam").data ∧
    ¬ List.IsInfix ("External camera").data ("usb-0000.2").data ∧
    ¬ List.IsInfix ("External camera").data
        (cameraName { location := some CameraLocation.External, model := some "UVC Webcam" }
          "usb-0000.2").data :=
  ⟨by decide, by decide,
    (external_model_overwrites "UVC Webcam" "usb-0000.2").2.2 (by decide) (by decide)⟩

/-- C9: for every camera, `cameraName` returns a string ending in the
suffix " (" ++ id ++ ")" (the unique id appended at line 158); and
when the Location property is absent the returned name is exactly that
parenthesized identifier suffix with an empty base name. -/
theorem cameraName_suffix (props : CameraProps) (id : String) :
    List.IsSuffix (" (" ++ id ++ ")").data (cameraName props id).data ∧
      (props.location = none → cameraName props id = " (" ++ id ++ ")") := by
  constructor
  · obtain ⟨loc, model⟩ := props
    cases loc with
    | none => exact ⟨("").data, rfl⟩
    | some l =>
        cases l with
        | Front => exact ⟨("Internal front camera").data, rfl⟩
        | Back => exact ⟨("Internal back camera").data, rfl⟩
        | External =>
            cases model with
            | none => exact ⟨("External camera").data, rfl⟩
            | some m => exact ⟨(" \x27" ++ m ++ "\x27").data, rfl⟩
  · intro h
    obtain ⟨loc, model⟩ := props
    simp only at h
    subst h
    rfl

/-- C9 witness: the suffix theorem applied at a concrete camera with
no Location property. -/
theorem cameraName_suffix_witness :
    List.IsSuffix (" (" ++ "platform-abc" ++ ")").data
        (cameraName { location := none, model := none } "platform-abc").data ∧
      cameraName { location := none, model := none } "platform-abc" =
        " (" ++ "platform-abc" ++ ")" :=
  ⟨(cameraName_suffix { location := none, model := none } "platform-abc").1,
   (cameraName_suffix { location := none, model := none } "platform-abc").2 rfl⟩

/-- The outcomes of the external collaborators consulted by `main`
(device enumeration, the frame-buffer allocator, request creation and
buffer binding, and the event loop's exit value), treated as an oracle
so that every control path of simple-cam.cpp lines 163–491 is covered:
`cameras` is the enumeration (line 190/215), `allocResult` the return
of `allocator->allocate` (line 369), `numBuffers` the size of
`allocator->buffers(stream)` (line 399), `createRequestOk i` whether
the i-th `camera->createRequest()` succeeds (line 403),
`addBufferResult i` the return of `request->addBuffer` for the i-th
buffer (line 411), and `execResult` the value returned by `loop.exec()`
(line 472). -/
structure Env where
  cameras : List String
  allocResult : Int
  numBuffers : Nat
  createRequestOk : Nat → Bool
  addBufferResult : Nat → Int
  execResult : Int

/-- The observable outcome of one execution of `main`: the returned
exit code and which side effects ran — `cm->stop()`, `camera->acquire()`,
`camera->start()`, the requests passed to `camera->queueRequest` before
the loop, whether `loop.exec()` ran and what it returned, and the
teardown steps `camera->stop()`, `allocator->free(stream)` and
`camera->release()` (simple-cam.cpp lines 483–488). -/
structure MainTrace where
  exitCode : Int
  cmStopped : Bool
  acquired : Bool
  started : Bool
  queued : List Request
  loopRan : Bool
  execReturned : Option Int
  stopped : Bool
  allocFreed : Bool
  released : Bool
deriving DecidableEq

/-- The single stream configured for the `StreamRole::Raw` role
(simple-cam.cpp lines 265–266 and 398). -/
def primaryStream : Nat := 0

/-- The request-building loop of simple-cam.cpp lines 400–426: one
`camera->createRequest()` per allocated buffer (returning `none` — the
source's `return EXIT_FAILURE` — when creation fails, line 407), one
`request->addBuffer(stream, buffer)` binding the i-th buffer (failing
when the result is negative, line 416), and the request appended to
the list. -/
def buildRequests (env : Env) : List Nat → Option (List Request)
  | [] => some []
  | i :: rest =>
      if env.createRequestOk i = false then none
      else if env.addBufferResult i < 0 then none
      else
        match buildRequests env rest with
        | none => none
        | some rs =>
            some ({ buffers := [(primaryStream, i)], state := ReqState.Idle,
                    metadata := [] } :: rs)

/-- The orchestration of simple-cam.cpp's `main` (lines 163–491): stop
the manager and return EXIT_FAILURE when no camera is enumerated
(lines 215–221); otherwise acquire the first camera (line 225),
configure it (lines 334–342, return values ignored by the source),
return EXIT_FAILURE without any teardown when `allocator->allocate` is
negative (lines 369–374) or when the request-building loop fails
(lines 400–417); otherwise start the camera (line 460), queue every
built request (lines 461–462), run the event loop (line 472, its
return value only printed, line 474), then stop the camera, free the
buffers, release the camera, stop the manager, and return EXIT_SUCCESS
(lines 483–490). -/
def mainFn (env : Env) : MainTrace :=
  if env.cameras.isEmpty then
    { exitCode := 1, cmStopped := true, acquired := false, started := false,
      queued := [], loopRan := false, execReturned := none,
      stopped := false, allocFreed := false, released := false }
  else if env.allocResult < 0 then
    { exitCode := 1, cmStopped := false, acquired := true, started := false,
      queued := [], loopRan := false, execReturned := none,
      stopped := false, allocFreed := false, released := false }
  else
    match buildRequests env (List.range env.numBuffers) with
    | none =>
        { exitCode := 1, cmStopped := false, acquired := true, started := false,
          queued := [], loopRan := false, execReturned := none,
          stopped := false, allocFreed := false, released := false }
    | some reqs =>
        { exitCode := 0, cmStopped := true, acquired := true, started := true,
          queued := reqs, loopRan := true, execReturned := some env.execResult,
          stopped := true, allocFreed := true, released := true }

/-- An environment on which every setup step succeeds and `loop.exec()`
returns 5. -/
def envLoopFive : Env :=
  { cameras := ["cam0"], allocResult := 0, numBuffers := 4,
    createRequestOk := fun _ => true, addBufferResult := fun _ => 0,
    execResult := 5 }

/-- An environment on which `allocator->allocate` fails. -/
def envAllocFail : Env :=
  { cameras := ["cam0"], allocResult := -1, numBuffers := 0,
    createRequestOk := fun _ => true, addBufferResult := fun _ => 0,
    execResult := 0 }

/-- An environment enumerating no cameras. -/
def envNoCameras : Env :=
  { cameras := [], allocResult := 0, numBuffers := 0,
    createRequestOk := fun _ => true, addBufferResult := fun _ => 0,
    execResult := 0 }

/-- C2 (amended): on every execution that reaches the event loop,
`main` returns EXIT_SUCCESS (0) regardless of the value `loop.exec()`
returned — the loop's exit status is only printed, not propagated. -/
theorem main_exit_success_after_loop (env : Env)
    (h : (mainFn env).loopRan = true) : (mainFn env).exitCode = 0 := by
  by_cases hc : env.cameras.isEmpty
  · simp [mainFn, hc] at h
  · by_cases ha : env.allocResult < 0
    · simp [mainFn, hc, ha] at h
    · cases hb : buildRequests env (List.range env.numBuffers) with
      | none => simp [mainFn, hc, ha, hb] at h
      | some reqs => simp [mainFn, hc, ha, hb]

/-- C2 counterexample: on a concrete execution where `loop.exec()`
returns 5, the process exit status is 0, not 5 — refuting the claim
that main returns exactly the value returned by the event loop. -/
theorem main_exit_success_after_loop_cex :
    (mainFn envLoopFive).execReturned = some 5 ∧ (mainFn envLoopFive).exitCode = 0 ∧
      (mainFn envLoopFive).exitCode ≠ 5 := by
  refine ⟨rfl, rfl, by decide⟩

/-- C2 witness: the amended theorem applied at a concrete environment
that reaches the event loop. -/
theorem main_exit_success_after_loop_witness : (mainFn envLoopFive).exitCode = 0 :=
  main_exit_success_after_loop envLoopFive rfl

/-- C3 (amended): the teardown sequence — `camera->stop()`,
`allocator->free`, `camera->release()`, `cm->stop()` — runs exactly on
the executions that reach the event loop; on every early/error exit
the program returns without releasing or stopping the device. -/
theorem teardown_only_after_loop (env : Env) :
    ((mainFn env).loopRan = true →
      (mainFn env).stopped = true ∧ (mainFn env).allocFreed = true ∧
        (mainFn env).released = true ∧ (mainFn env).cmStopped = true) ∧
    ((mainFn env).loopRan = false →
      (mainFn env).released = false ∧ (mainFn env).stopped = false) := by
  by_cases hc : env.cameras.isEmpty
  · exact ⟨fun h => by simp [mainFn, hc] at h, fun _ => by simp [mainFn, hc]⟩
  · by_cases ha : env.allocResult < 0
    · exact ⟨fun h => by simp [mainFn, hc, ha] at h, fun _ => by simp [mainFn, hc, ha]⟩
    · cases hb : buildRequests env (List.range env.numBuffers) with
      | none =>
          exact ⟨fun h => by simp [mainFn, hc, ha, hb] at h,
                 fun _ => by simp [mainFn, hc, ha, hb]⟩
      | some reqs =>
          exact ⟨fun _ => by simp [mainFn, hc, ha, hb],
                 fun h => by simp [mainFn, hc, ha, hb] at h⟩

/-- C3 counterexample: on a concrete execution whose buffer allocation
fails, `main` returns EXIT_FAILURE while the device is still acquired
and never released and the camera is never stopped — refuting the
claim that teardown runs on every terminating execution. -/
theorem teardown_only_after_loop_cex :
    (mainFn envAllocFail).acquired = true ∧ (mainFn envAllocFail).released = false ∧
      (mainFn envAllocFail).stopped = false ∧ (mainFn envAllocFail).exitCode = 1 := by
  refine ⟨rfl, rfl, rfl, rfl⟩

/-- C3 witness: the amended theorem applied at a concrete environment
that reaches the event loop. -/
theorem teardown_only_after_loop_witness :
    (mainFn envLoopFive).stopped = true ∧ (mainFn envLoopFive).allocFreed = true ∧
      (mainFn envLoopFive).released = true ∧ (mainFn envLoopFive).cmStopped = true :=
  (teardown_only_after_loop envLoopFive).1 rfl

theorem buildRequests_ok (env : Env) :
    ∀ l : List Nat,
      (∀ i ∈ l, env.createRequestOk i = true ∧ 0 ≤ env.addBufferResult i) →
      ∃ reqs, buildRequests env l = some reqs ∧ reqs.length = l.length ∧
        ∀ k (h1 : k < reqs.length) (h2 : k < l.length),
          (reqs.get ⟨k, h1⟩).buffers = [(primaryStream, l.get ⟨k, h2⟩)] := by
  intro l
  induction l with
  | nil =>
      intro _
      exact ⟨[], rfl, rfl, fun k h1 _ => absurd h1 (by simp)⟩
  | cons i rest ih =>
      intro hall
      obtain ⟨hok, hbuf⟩ := hall i (List.mem_cons_self i rest)
      obtain ⟨reqs, hreqs, hlen, hget⟩ :=
        ih (fun j hj => hall j (List.mem_cons_of_mem _ hj))
      have hb2 : ¬ env.addBufferResult i < 0 := not_lt.mpr hbuf
      refine ⟨{ buffers := [(primaryStream, i)], state := ReqState.Idle,
                metadata := [] } :: reqs, ?_, ?_, ?_⟩
      · simp [buildRequests, hok, hb2, hreqs]
      · simp [hlen]
      · intro k h1 h2
        cases k with
        | zero => rfl
        | succ k2 =>
            exact hget k2 (by simp only [List.length_cons] at h1; omega)
              (by simp only [List.length_cons] at h2; omega)

/-- C5: on every successful setup — some camera enumerated, buffer
allocation non-negative, every `createRequest` and `addBuffer`
succeeding — the request-building loop builds exactly one Request per
allocated buffer of the primary stream, the i-th Request binding
exactly the single i-th buffer handle, and all of them are then
queued to the started camera. -/
theorem requests_one_per_buffer (env : Env) (hc : env.cameras ≠ [])
    (ha : 0 ≤ env.allocResult)
    (hall : ∀ i, i < env.numBuffers →
      env.createRequestOk i = true ∧ 0 ≤ env.addBufferResult i) :
    ∃ reqs, buildRequests env (List.range env.numBuffers) = some reqs ∧
      reqs.length = env.numBuffers ∧
      (∀ k (h1 : k < reqs.length), (reqs.get ⟨k, h1⟩).buffers = [(primaryStream, k)]) ∧
      (mainFn env).queued = reqs ∧ (mainFn env).started = true := by
  have hc2 : ¬ env.cameras.isEmpty = true := by simpa [List.isEmpty_iff] using hc
  have ha2 : ¬ env.allocResult < 0 := not_lt.mpr ha
  obtain ⟨reqs, hreqs, hlen, hget⟩ := buildRequests_ok env (List.range env.numBuffers)
    (fun i hi => hall i (List.mem_range.mp hi))
  refine ⟨reqs, hreqs, by simpa using hlen, ?_, ?_, ?_⟩
  · intro k h1
    have h2 : k < (List.range env.numBuffers).length := hlen ▸ h1
    have h3 := hget k h1 h2
    simpa [List.get_range] using h3
  · simp [mainFn, hc2, ha2, hreqs]
  · simp [mainFn, hc2, ha2, hreqs]

/-- C5 witness: the theorem applied at a concrete environment with 4
allocated buffers and every setup step succeeding. -/
theorem requests_one_per_buffer_witness :
    ∃ reqs, buildRequests envLoopFive (List.range envLoopFive.numBuffers) = some reqs ∧
      reqs.length = envLoopFive.numBuffers ∧
      (∀ k (h1 : k < reqs.length), (reqs.get ⟨k, h1⟩).buffers = [(primaryStream, k)]) ∧
      (mainFn envLoopFive).queued = reqs ∧ (mainFn envLoopFive).started = true :=
  requests_one_per_buffer envLoopFive (by decide) (by decide)
    (fun _ _ => ⟨rfl, le_refl 0⟩)

theorem buildRequests_fail (env : Env) :
    ∀ l : List Nat,
      (∃ i ∈ l, env.createRequestOk i = false ∨ env.addBufferResult i < 0) →
      buildRequests env l = none := by
  intro l
  induction l with
  | nil => intro h; simp at h
  | cons j rest ih =>
      intro h
      obtain ⟨i, hi, hfail⟩ := h
      by_cases hok : env.createRequestOk j = false
      · simp [buildRequests, hok]
      · by_cases hbuf : env.addBufferResult j < 0
        · simp [buildRequests, hok, hbuf]
        · have hir : i ∈ rest := by
            rcases List.mem_cons.mp hi with rfl | hr
            · rcases hfail with hf | hf
              · exact absurd hf hok
              · exact absurd hf hbuf
            · exact hr
          simp [buildRequests, hok, hbuf, ih ⟨i, hir, hfail⟩]

/-- C8: if buffer allocation fails (a negative allocator result), or
some `createRequest` fails, or some `addBuffer` binding fails, then
`main` returns EXIT_FAILURE synchronously: the camera is never
started, no request is ever queued, and the event loop never runs. -/
theorem setup_failure_aborts (env : Env) (hc : env.cameras ≠ [])
    (hfail : env.allocResult < 0 ∨
      ∃ i, i < env.numBuffers ∧
        (env.createRequestOk i = false ∨ env.addBufferResult i < 0)) :
    (mainFn env).exitCode = 1 ∧ (mainFn env).started = false ∧
      (mainFn env).queued = [] ∧ (mainFn env).loopRan = false := by
  have hc2 : ¬ env.cameras.isEmpty = true := by simpa [List.isEmpty_iff] using hc
  rcases hfail with ha | ⟨i, hi, hf⟩
  · simp [mainFn, hc2, ha]
  · by_cases ha : env.allocResult < 0
    · simp [mainFn, hc2, ha]
    · have hb : buildRequests env (List.range env.numBuffers) = none :=
        buildRequests_fail env _ ⟨i, List.mem_range.mpr hi, hf⟩
      simp [mainFn, hc2, ha, hb]

/-- C8 witness: the theorem applied at a concrete environment whose
buffer allocation returns a negative result. -/
theorem setup_failure_aborts_witness :
    (mainFn envAllocFail).exitCode = 1 ∧ (mainFn envAllocFail).started = false ∧
      (mainFn envAllocFail).queued = [] ∧ (mainFn envAllocFail).loopRan = false :=
  setup_failure_aborts envAllocFail (by decide) (Or.inl (by decide))

/-- C10: when the camera manager enumerates zero cameras, `main` stops
the camera manager and returns EXIT_FAILURE without acquiring or
starting any camera, without queuing any request, and without running
the event loop. -/
theorem no_cameras_aborts (env : Env) (hc : env.cameras = []) :
    (mainFn env).exitCode = 1 ∧ (mainFn env).cmStopped = true ∧
      (mainFn env).acquired = false ∧ (mainFn env).started = false ∧
      (mainFn env).loopRan = false ∧ (mainFn env).queued = [] := by
  simp [mainFn, hc]

/-- C10 witness: the theorem applied at a concrete environment that
enumerates no cameras. -/
theorem no_cameras_aborts_witness :
    (mainFn envNoCameras).exitCode = 1 ∧ (mainFn envNoCameras).cmStopped = true ∧
      (mainFn envNoCameras).acquired = false ∧ (mainFn envNoCameras).started = false ∧
      (mainFn envNoCameras).loopRan = false ∧ (mainFn envNoCameras).queued = [] :=
  no_cameras_aborts envNoCameras rfl
